import Mathlib

/-!
Verification development for the Executive Layer (ExL) repository.

This file gives a shallow embedding, in Lean 4, of the core operations of the
ExL system and proves properties of them:

* the embedding provider pipeline (`generateEmbedding` in the Neo4j manager):
  mean pooling of a per-token tensor, null/NaN coercion, truncation/padding to
  the configured dimension;
* the graph store layer (`initializeSchema`, `createNode`, `createEdge`,
  `vectorSearch` in the Neo4j manager): schema constraints, node and edge
  creation, vector-similarity ranking;
* the Executive writeback (`updateKnowledgeGraph` in the executive server);
* the dual-worker streaming loop of the speaker server
  (`handleChatRequest`, streaming branch): SSE chunk emission, the
  at-most-once interruption latch, the `data: DONE` sentinel discipline and
  the executive re-evaluation trigger.

Conventions of the embedding:

* JavaScript numbers are modelled as `JSNum` (a rational or NaN); machine
  floating point is abstracted to rationals, which preserves the control flow
  of the source (every branch of the source tests only truthiness, NaN-ness
  or comparisons).
* The Neo4j driver is modelled as a deterministic state transformer over
  `GraphState`.  The order of `GraphState.nodes` models the database's
  internal enumeration order of rows, which Neo4j does not guarantee to
  coincide with insertion order or id order.
* The embedding model and the cosine-similarity scoring function of the
  database are external collaborators; they are passed as parameters
  (`embed`, `sim`) to the operations that use them.
* Asynchronous executive evaluation is modelled by an oracle: for each loop
  iteration the oracle says whether the non-blocking poll observed a
  completed verdict, and if so which one.
-/

namespace ExL

/-! ## JavaScript numbers -/

/-- A JavaScript number as it flows through the embedding pipeline: either a
finite value (modelled as a rational) or NaN. -/
inductive JSNum where
  | nan : JSNum
  | num (q : ℚ) : JSNum
deriving DecidableEq, Repr

namespace JSNum

/-- JavaScript addition: NaN is absorbing. -/
def add : JSNum → JSNum → JSNum
  | num a, num b => num (a + b)
  | _, _ => nan

/-- JavaScript division by a token count (`averagedEmbedding[dimIdx] /= numTokens`).
A zero denominator only arises for an empty tensor, in which case the numerator
is the initial sum `0` and JavaScript produces `0/0 = NaN`. -/
def divNat : JSNum → Nat → JSNum
  | _, 0 => nan
  | nan, _ => nan
  | num a, n => num (a / n)

/-- The effect of `Number(value)` followed by the `isNaN` check of the source:
NaN is replaced by `0`, finite values are kept. -/
def coerce : JSNum → ℚ
  | nan => 0
  | num q => q

end JSNum

/-! ## Embedding pipeline (`generateEmbedding`, src lines 77-218 of the Neo4j
manager)

The raw model output is either a tensor of dims `1 × numTokens ×
embeddingDim` with a flat data buffer, or an already-flat array whose entries
may be `null`/`undefined` (modelled as `Option.none`). -/

/-- Raw output of the underlying embedding model, as discriminated by the
source: a `Tensor` object with `ort_tensor.dims = 1, T, D` and flat
`cpuData`, or a plain array of entries. -/
inductive EmbedOutput where
  | tensor (numTokens embeddingDim : Nat) (data : List JSNum) : EmbedOutput
  | flat (entries : List (Option JSNum)) : EmbedOutput
deriving DecidableEq, Repr

/-- Indexing into the flat tensor buffer; an out-of-range access yields
`undefined`, which behaves as NaN once added to the running sum. -/
def tensorAt (data : List JSNum) (i : Nat) : JSNum :=
  (data.get? i).getD JSNum.nan

/-- The inner summation loop of the tensor branch: sum over all tokens of the
entries of dimension `dimIdx`. -/
def sumTokens (data : List JSNum) (numTokens embeddingDim dimIdx : Nat) : JSNum :=
  (List.range numTokens).foldl
    (fun acc tokenIdx => acc.add (tensorAt data (tokenIdx * embeddingDim + dimIdx)))
    (JSNum.num 0)

/-- Mean pooling across the token axis of a `1 × numTokens × embeddingDim`
tensor, as computed by the two loops of the source. -/
def meanPool (numTokens embeddingDim : Nat) (data : List JSNum) : List JSNum :=
  (List.range embeddingDim).map
    (fun dimIdx => (sumTokens data numTokens embeddingDim dimIdx).divNat numTokens)

/-- Extraction of the raw embedding vector: the tensor branch mean-pools (its
entries are numbers, never null), the array branch uses the entries as they
are.  An empty array leaves `embedding` unset and the source throws a
`Failed to extract embedding vector` error, modelled as `none`. -/
def extractEmbedding : EmbedOutput → Option (List (Option JSNum))
  | .tensor numTokens embeddingDim data =>
      some ((meanPool numTokens embeddingDim data).map some)
  | .flat [] => none
  | .flat entries => some entries

/-- The null-replacement pass of the source (`value === null || undefined`
becomes `0`), followed by the `Number`/`isNaN` coercion pass (NaN becomes `0`). -/
def sanitize (raw : List (Option JSNum)) : List ℚ :=
  (raw.map (fun v => v.getD (JSNum.num 0))).map JSNum.coerce

/-- Dimension correction of the source: a vector longer than the configured
dimension is truncated, a shorter one is zero-padded. -/
def fitToDim (D : Nat) (v : List ℚ) : List ℚ :=
  if v.length > D then v.take D
  else if v.length < D then v ++ List.replicate (D - v.length) 0
  else v

/-- The full `generateEmbedding` pipeline on a raw model output: extract,
replace nulls, coerce NaN, fit to the configured dimension.  `none` models the
thrown extraction error. -/
def generateEmbedding (D : Nat) (out : EmbedOutput) : Option (List ℚ) :=
  (extractEmbedding out).map (fun raw => fitToDim D (sanitize raw))

/-! ## Graph store (`initializeSchema`, `createNode`, `createEdge` of the
Neo4j manager) -/

/-- A uniqueness constraint of the schema, `REQUIRE n.prop IS UNIQUE` for
nodes labelled `label`. -/
structure Constraint where
  label : String
  prop : String
deriving DecidableEq, Repr

/-- The uniqueness constraints created by `initializeSchema`, in source
order: `topic_name`, `knowledge_id`, `tag_category_name`, `tag_name`.  Note
the `Knowledge` constraint is on the `id` property, not on `name`. -/
def schemaConstraints : List Constraint :=
  [⟨"Topic", "name"⟩, ⟨"Knowledge", "id"⟩, ⟨"TagCategory", "name"⟩, ⟨"Tag", "name"⟩]

/-- The labels that receive a cosine vector index on `embedding` in
`initializeSchema`. -/
def schemaVectorIndexLabels : List String :=
  ["Topic", "Knowledge", "Tag", "TagCategory"]

/-- Splitting `nodeType` at underscores on the character list, keeping
empty segments, as the JavaScript `split` call of the source does. -/
def splitUnderscore (acc : List Char) : List Char → List (List Char)
  | [] => [acc.reverse]
  | c :: cs =>
    if c = '_' then acc.reverse :: splitUnderscore [] cs
    else splitUnderscore (c :: acc) cs

/-- Capitalization of one word, as `charAt(0).toUpperCase()` plus the rest. -/
def capitalizeWord : List Char → String
  | [] => ""
  | c :: cs => String.mk (c.toUpper :: cs)

/-- Conversion of a `nodeType` argument to a Neo4j label, e.g.
`tag_category` to `TagCategory`: split on underscores, capitalize each word,
join. -/
def toLabel (nodeType : String) : String :=
  String.join ((splitUnderscore [] nodeType.data).map capitalizeWord)

/-- A node of the graph.  `id` is the driver-assigned internal id (`id(n)` in
Cypher); it is not a stored property.  `summary` and the entries of `extra`
model the `additionalFields` of `createNode`; `embedding` is absent when
generation failed. -/
structure GNode where
  id : Nat
  label : String
  name : String
  description : String
  summary : Option String
  extra : List (String × String)
  embedding : Option (List ℚ)
deriving DecidableEq, Repr

/-- The stored property of a node under a given key, as visible to a
uniqueness constraint.  The internal id is not a property, so the key `id`
only resolves through `extra`. -/
def GNode.property (n : GNode) : String → Option String
  | "name" => some n.name
  | "description" => some n.description
  | "summary" => n.summary
  | p => (n.extra.find? (fun kv => kv.1 == p)).map (fun kv => kv.2)

/-- A relationship of the graph.  `createNode` emits `BELONGS_TO` edges with
no properties; `createEdge` emits `RELATES` edges carrying `relationship` and
`description` properties. -/
structure GEdge where
  id : Nat
  source : Nat
  target : Nat
  relType : String
  relationship : Option String
  description : Option String
deriving DecidableEq, Repr

/-- The graph database state.  The order of `nodes` models the database's
internal enumeration order of rows, which Neo4j does not guarantee to follow
insertion order or id order. -/
structure GraphState where
  nodes : List GNode
  edges : List GEdge
  nextNodeId : Nat
  nextEdgeId : Nat
deriving DecidableEq, Repr

/-- The empty database. -/
def GraphState.empty : GraphState := ⟨[], [], 0, 0⟩

/-- Failures of the graph operations. -/
inductive GraphError where
  | duplicateName (label name : String) : GraphError
  | noMatch : GraphError
deriving DecidableEq, Repr

/-- Whether inserting `n` violates one of the schema's uniqueness
constraints: some constraint on `n.label` has a non-null property value on `n`
that an existing node with the same label already carries. -/
def violatesConstraint (nodes : List GNode) (n : GNode) : Bool :=
  schemaConstraints.any (fun c =>
    c.label == n.label &&
      match n.property c.prop with
      | none => false
      | some v => nodes.any (fun m => m.label == n.label && m.property c.prop == some v))

/-- The node record assembled by `createNode` before the `CREATE` query runs:
label derived from `nodeType`, and for `knowledge` nodes a missing (or
JS-falsy, i.e. empty) summary defaulted to the name.  The embedding is
attached after creation, from `embed name`, truncated or padded to `D` by
`setNodeEmbedding`. -/
def newNodeFor (embed : String → Option (List ℚ)) (D : Nat) (st : GraphState)
    (nodeType name description : String)
    (summaryField : Option String) (extra : List (String × String)) : GNode :=
  let summary :=
    match summaryField with
    | none => if nodeType == "knowledge" then some name else none
    | some s => if nodeType == "knowledge" && s == "" then some name else some s
  { id := st.nextNodeId
    label := toLabel nodeType
    name := name
    description := description
    summary := summary
    extra := extra
    embedding := (embed name).map (fitToDim D) }

/-- One iteration of the `belongsTo` loop of `createNode`: `MATCH` the
parents by label and name and `CREATE` one `BELONGS_TO` edge from the child to
each match.  A missing parent simply matches nothing: no edge and no error. -/
def attachParent (childId : Nat) (st : GraphState) (parent : String × String) : GraphState :=
  let parentLabel := toLabel parent.1
  let found := st.nodes.filter (fun m => m.label == parentLabel && m.name == parent.2)
  let newEdges := found.enum.map (fun im =>
    GEdge.mk (st.nextEdgeId + im.1) childId im.2.id "BELONGS_TO" none none)
  { st with edges := st.edges ++ newEdges, nextEdgeId := st.nextEdgeId + found.length }

/-- The `createNode` operation (src lines 377-452 of the Neo4j manager): assemble the
properties, run the constrained `CREATE`, attach the embedding, then attach
`BELONGS_TO` edges for each `belongsTo` parent that exists.  Returns the new
node's id. -/
def createNode (embed : String → Option (List ℚ)) (D : Nat) (st : GraphState)
    (nodeType name description : String)
    (belongsTo : Option (List (String × String)))
    (summaryField : Option String) (extra : List (String × String)) :
    Except GraphError (Nat × GraphState) :=
  let node := newNodeFor embed D st nodeType name description summaryField extra
  if violatesConstraint st.nodes node then
    .error (.duplicateName node.label name)
  else
    let st1 : GraphState :=
      { st with nodes := st.nodes ++ [node], nextNodeId := st.nextNodeId + 1 }
    let st2 := (belongsTo.getD []).foldl (attachParent node.id) st1
    .ok (st.nextNodeId, st2)

/-- A `string | string[]` argument of `createEdge`. -/
inductive NameArg where
  | one (s : String) : NameArg
  | many (l : List String) : NameArg
deriving DecidableEq, Repr

/-- Normalization of a name argument to a list, as the `Array.isArray` test does. -/
def NameArg.toList : NameArg → List String
  | one s => [s]
  | many l => l

/-- One iteration of the nested loops of `createEdge` for a source/target
name pair: `MATCH` both endpoints, `CREATE` one `RELATES` edge per matching
row, and read the id of the first created edge from `records[0]`.  With no
matching row, `records[0]` is undefined and the source throws. -/
def createEdgePair (sourceLabel targetLabel relationship description : String)
    (acc : Int × GraphState) (pair : String × String) :
    Except GraphError (Int × GraphState) :=
  let st := acc.2
  let sources := st.nodes.filter (fun n => n.label == sourceLabel && n.name == pair.1)
  let targets := st.nodes.filter (fun n => n.label == targetLabel && n.name == pair.2)
  let rows := sources.flatMap (fun a => targets.map (fun b => (a, b)))
  match rows with
  | [] => .error .noMatch
  | _ =>
    let newEdges := rows.enum.map (fun (i, ab) =>
      GEdge.mk (st.nextEdgeId + i) ab.1.id ab.2.id "RELATES"
        (some relationship) (some description))
    .ok (Int.ofNat st.nextEdgeId,
      { st with edges := st.edges ++ newEdges, nextEdgeId := st.nextEdgeId + rows.length })

/-- The `createEdge` operation (src lines 464-515 of the Neo4j manager): iterate over the
cross product of source and target names, keeping the id of the last created
edge; the id starts as `-1` and is returned unchanged when the loops never
run. -/
def createEdge (st : GraphState) (sourceType : String) (sourceName : NameArg)
    (targetType : String) (targetName : NameArg)
    (relationship description : String) :
    Except GraphError (Int × GraphState) :=
  let sourceLabel := toLabel sourceType
  let targetLabel := toLabel targetType
  let pairs := sourceName.toList.flatMap (fun s => targetName.toList.map (fun t => (s, t)))
  pairs.foldlM (createEdgePair sourceLabel targetLabel relationship description)
    ((-1 : Int), st)

/-! ## Vector search (`vectorSearch` of the Neo4j manager)

The cosine-similarity scoring of the database is abstracted as a parameter
`sim`; the Cypher `ORDER BY score DESC` is modelled by a stable sort on the
rows in the database's enumeration order. -/

/-- One row of a vector search result, as returned to callers:
`node.name, node.description, id(node), score`. -/
structure SearchRow where
  id : Nat
  name : String
  description : String
  score : ℚ
deriving DecidableEq, Repr

/-- The ordering used by `ORDER BY score DESC`: a row comes before another
when its score is at least as large.  No other sort key appears in the
query. -/
def rowBefore (a b : SearchRow) : Prop := b.score ≤ a.score

instance : DecidableRel rowBefore := fun a b =>
  inferInstanceAs (Decidable (b.score ≤ a.score))

instance : IsTotal SearchRow rowBefore :=
  ⟨fun a b => le_total b.score a.score⟩

instance : IsTrans SearchRow rowBefore :=
  ⟨fun _ _ _ h1 h2 => le_trans h2 h1⟩

/-- The row set of the similarity query: nodes of the requested label with a
non-null embedding, scored against the query embedding. -/
def scoreRows (sim : List ℚ → List ℚ → ℚ) (queryEmbedding : List ℚ)
    (label : String) (nodes : List GNode) : List SearchRow :=
  nodes.filterMap (fun n =>
    match n.embedding with
    | none => none
    | some e =>
      if n.label == label then some ⟨n.id, n.name, n.description, sim e queryEmbedding⟩
      else none)

/-- The `WHERE score >= minSimilarity ... ORDER BY score DESC LIMIT limit`
tail of the similarity query, applied to the rows in the database's
enumeration order. -/
def rankRows (rows : List SearchRow) (minSimilarity : ℚ) (limit : Nat) : List SearchRow :=
  (List.insertionSort rowBefore (rows.filter (fun r => minSimilarity ≤ r.score))).take limit

/-- The `vectorSearch` operation (src lines 700-808 of the Neo4j manager), similarity
path: embed the query text, score, filter, order, limit.  `none` models the
error thrown when embedding generation fails. -/
def vectorSearch (sim : List ℚ → List ℚ → ℚ) (embed : String → Option (List ℚ))
    (st : GraphState) (nodeType text : String) (limit : Nat) (minSimilarity : ℚ) :
    Option (List SearchRow) :=
  (embed text).map (fun qe =>
    rankRows (scoreRows sim qe (toLabel nodeType) st.nodes) minSimilarity limit)

/-- The final fallback of `vectorSearch` (src lines 782-802): when every
vector method fails, return nodes with embeddings unscored, with placeholder
score `1.0` and no `ORDER BY` at all. -/
def vectorSearchFallback (st : GraphState) (nodeType : String) (limit : Nat) :
    List SearchRow :=
  ((st.nodes.filter (fun n => n.label == toLabel nodeType && n.embedding.isSome)).map
    (fun n => SearchRow.mk n.id n.name n.description 1)).take limit

/-! ## Executive writeback (`updateKnowledgeGraph`, executive server)

The current executive locates the topic for the query with
`knowledge_vector_search (nodeType topic, limit 1, minSimilarity 0.9)`,
creates a topic only when that search returns nothing, then creates a
knowledge node carrying the conversation with `belongsTo topic, query`.
`knowledge_create_node` answers `Node created successfully with ID: n`, so
the id regex of the writeback always parses. -/

/-- A chat message as the writeback sees it. -/
structure Msg where
  role : String
  content : String
deriving DecidableEq, Repr

/-- The name of the knowledge node created per
exchange. -/
def conversationName (query : String) : String :=
  "Conversation about: " ++ query

/-- The summary of the knowledge node: the first 100 characters of the user message. -/
def conversationSummary (userMsg : Msg) : String :=
  "User asked: " ++ userMsg.content.take 100 ++ "..."

/-- The conversation payload stored as description and as the `data` field. -/
def conversationData (userMsg assistantMsg : Msg) : String :=
  "User: " ++ userMsg.content ++ "\n\nAssistant: " ++ assistantMsg.content

/-- The second half of the writeback: with a parsed topic id at hand (JS
truthiness skips id `0`), create the knowledge node with its `belongsTo`
reference to `(topic, query)`.  A thrown creation error is swallowed by the
outer catch, leaving the state as it was. -/
def finishWriteback (embed : String → Option (List ℚ)) (D : Nat) (st : GraphState)
    (topicId : Option Nat) (query : String) (userMsg assistantMsg : Msg) : GraphState :=
  match topicId with
  | none => st
  | some tid =>
    if tid = 0 then st
    else
      match createNode embed D st "knowledge" (conversationName query)
          (conversationData userMsg assistantMsg)
          (some [("topic", query)])
          (some (conversationSummary userMsg))
          [("data", conversationData userMsg assistantMsg)] with
      | .error _ => st
      | .ok (_, st2) => st2

/-- The `updateKnowledgeGraph` writeback (executive server): find the first user and
assistant messages, look the topic up by vector similarity (limit 1,
minimum similarity 0.9), create a topic named after the query only when the
search is empty, then attach the conversation knowledge node.  Every failure
is caught and swallowed. -/
def updateKnowledgeGraph (sim : List ℚ → List ℚ → ℚ) (embed : String → Option (List ℚ))
    (D : Nat) (st : GraphState) (query : String) (messages : List Msg) : GraphState :=
  match messages.find? (fun m => m.role == "user"),
        messages.find? (fun m => m.role == "assistant") with
  | some userMsg, some assistantMsg =>
    (match vectorSearch sim embed st "topic" query 1 (9/10) with
     | none => st
     | some results =>
       match results with
       | [] =>
         (match createNode embed D st "topic" query
             ("Topic based on user query: " ++ query) none none [] with
          | .error _ => st
          | .ok (tid, st1) =>
            finishWriteback embed D st1 (some tid) query userMsg assistantMsg)
       | r :: _ =>
         finishWriteback embed D st (some r.id) query userMsg assistantMsg)
  | _, _ => st

/-! ## Dual-worker streaming loop (`handleChatRequest`, speaker server,
streaming branch)

The embedding models the current handler: the one that tracks
`hasExecutiveInterrupted` and knows only the `interrupt` action.  The
asynchronous executive is abstracted by an oracle: `poll` is what the
non-blocking `Promise.race` observed in a given iteration (`none` when the
race returned the timeout sentinel), `finalVerdict` is what the final await
delivered (`none` when it threw and was caught). -/

/-- The executive's verdict payload: `action, reason, knowledge_document`. -/
structure Verdict where
  action : String
  reason : String
  document : String
deriving DecidableEq, Repr

/-- One delta of the speaker's stream. -/
structure Delta where
  content : String
  hasToolCalls : Bool
deriving DecidableEq, Repr

/-- The SSE chunks the handler writes, in abstracted form. -/
inductive OutChunk where
  | roleChunk : OutChunk
  | debugEcho : OutChunk
  | speaker (content : String) (hasToolCalls : Bool) : OutChunk
  | thinking (reason : String) : OutChunk
  | interruption (document : String) : OutChunk
  | jsonResult (parsed : Bool) : OutChunk
  | finalStop : OutChunk
  | errorChunk (msg : String) : OutChunk
  | done : OutChunk
deriving DecidableEq, Repr

/-- Request-level configuration of the streaming branch. -/
structure StreamCfg where
  isJsonMode : Bool
  includeThinking : Bool
  debug : Bool
deriving DecidableEq, Repr

/-- The mutable loop variables of the streaming branch.  `isInterrupted` is
omitted: the source sets it and resets it within the same iteration, so it is
`false` whenever it is read. -/
structure LoopState where
  speakerOutput : String
  jsonCollected : String
  hasExecutiveInterrupted : Bool
deriving DecidableEq, Repr

/-- The initial loop state. -/
def LoopState.init : LoopState := ⟨"", "", false⟩

/-- The thinking chunk written when `include_executive_thinking` is set and
the verdict carries a non-empty reason. -/
def thinkingChunks (cfg : StreamCfg) (v : Verdict) : List OutChunk :=
  if cfg.includeThinking && v.reason ≠ "" then [OutChunk.thinking v.reason] else []

/-- One iteration of the forward loop, given the delta and what the
non-blocking verdict poll observed.  Returns the new loop state, the chunks
written this iteration, and the accumulated outputs carried by executive
evaluations spawned this iteration. -/
def streamStep (cfg : StreamCfg) (st : LoopState) (d : Delta) (poll : Option Verdict) :
    LoopState × List OutChunk × List String :=
  let so := st.speakerOutput ++ d.content
  let jc := if cfg.isJsonMode && d.content ≠ "" then st.jsonCollected ++ d.content
            else st.jsonCollected
  let checkActive := !st.hasExecutiveInterrupted
  let spawns := if checkActive && so.length > 0 && so.length % 100 == 0 then [so] else []
  let execStep : List OutChunk × Bool :=
    if checkActive then
      match poll with
      | none => ([], false)
      | some v =>
        if v.action == "interrupt" then
          (thinkingChunks cfg v ++ [OutChunk.interruption v.document], true)
        else (thinkingChunks cfg v, false)
    else ([], false)
  let forwarded := if cfg.isJsonMode && d.content ≠ "" then []
                   else [OutChunk.speaker d.content d.hasToolCalls]
  (⟨so, jc, st.hasExecutiveInterrupted || execStep.2⟩, execStep.1 ++ forwarded, spawns)

/-- The forward loop over the speaker's deltas, consuming one oracle entry
per iteration. -/
def runLoop (cfg : StreamCfg) : LoopState → List Delta → List (Option Verdict) →
    LoopState × List OutChunk × List String
  | st, [], _ => (st, [], [])
  | st, d :: ds, polls =>
    let step := streamStep cfg st d (polls.headD none)
    let rest := runLoop cfg step.1 ds polls.tail
    (rest.1, step.2.1 ++ rest.2.1, step.2.2 ++ rest.2.2)

/-- The final verdict check after the speaker ends: skipped once an
interruption has fired; a thrown await is caught and produces nothing. -/
def finalCheck (cfg : StreamCfg) (st : LoopState) (finalVerdict : Option Verdict) :
    List OutChunk :=
  if st.hasExecutiveInterrupted then []
  else
    match finalVerdict with
    | none => []
    | some v =>
      if v.action == "interrupt" then
        thinkingChunks cfg v ++ [OutChunk.interruption v.document]
      else thinkingChunks cfg v

/-- The JSON-mode tail: one chunk carrying either the stringified parse or
the parse-failure payload, only when content was collected. -/
def jsonTail (cfg : StreamCfg) (st : LoopState) (parsedOk : Bool) : List OutChunk :=
  if cfg.isJsonMode && st.jsonCollected ≠ "" then [OutChunk.jsonResult parsedOk] else []

/-- The whole streaming branch of `handleChatRequest` for one request: the
role chunk (and debug echo), the forward loop, and then either the normal
tail (final verdict check, JSON tail, final stop chunk, `DONE`) or, when the
speaker stream threw after its deltas, the error chunk followed by `DONE`.
Returns the written chunk sequence and the spawned evaluation payloads. -/
def runStream (cfg : StreamCfg) (deltas : List Delta) (polls : List (Option Verdict))
    (finalVerdict : Option Verdict) (speakerError : Option String) (parsedOk : Bool) :
    List OutChunk × List String :=
  let pre := [OutChunk.roleChunk] ++ (if cfg.debug then [OutChunk.debugEcho] else [])
  let run := runLoop cfg LoopState.init deltas polls
  match speakerError with
  | some msg => (pre ++ run.2.1 ++ [OutChunk.errorChunk msg, OutChunk.done], run.2.2)
  | none =>
    (pre ++ run.2.1 ++ finalCheck cfg run.1 finalVerdict ++ jsonTail cfg run.1 parsedOk
       ++ [OutChunk.finalStop, OutChunk.done], run.2.2)

/-! ## Auxiliary definitions for the statements and witnesses -/

/-- Chunk classifier: interruption chunks (content
`[Executive Interruption: document]`). -/
def OutChunk.isInterruption : OutChunk → Bool
  | .interruption _ => true
  | _ => false

/-- Chunk classifier: the `data: DONE` sentinel. -/
def OutChunk.isDone : OutChunk → Bool
  | .done => true
  | _ => false

/-- The accumulated speaker output after each delta of a stream, starting
from `acc`. -/
def accumStates (acc : String) : List Delta → List String
  | [] => []
  | d :: ds => (acc ++ d.content) :: accumStates (acc ++ d.content) ds

/-- A string of `n` copies of `a`, for concrete stream scenarios. -/
def charsA (n : Nat) : String := String.mk (List.replicate n 'a')

/-- An embedding provider whose generation always fails; node creation then
proceeds without an embedding. -/
def embedNone : String → Option (List ℚ) := fun _ => none

/-- A degenerate deterministic embedding provider mapping every text to the
one-dimensional vector `1`. -/
def embedUnit : String → Option (List ℚ) := fun _ => some [1]

/-- A similarity that scores identical vectors `1` and distinct vectors `0`,
as cosine similarity does on identical versus orthogonal embeddings. -/
def simExact : List ℚ → List ℚ → ℚ := fun a b => if a == b then 1 else 0

/-- The predicate selecting stored topics whose name is exactly the query:
these and only these receive the writeback's `BELONGS_TO` edge. -/
def topicNamed (query : String) (m : GNode) : Bool :=
  m.label == "Topic" && m.name == query

/-- The knowledge node assembled by the writeback for one exchange. -/
def writebackKnowledgeNode (embed : String → Option (List ℚ)) (D : Nat)
    (st : GraphState) (query : String) (userMsg assistantMsg : Msg) : GNode :=
  newNodeFor embed D st "knowledge" (conversationName query)
    (conversationData userMsg assistantMsg)
    (some (conversationSummary userMsg))
    [("data", conversationData userMsg assistantMsg)]

/-! ## Theorems -/

/-- Helper: the `belongsTo` loop only adds edges; the node table is
untouched. -/
theorem attachParent_nodes (cid : Nat) (st : GraphState) (p : String × String) :
    (attachParent cid st p).nodes = st.nodes := rfl

/-- Helper: folding the `belongsTo` loop over any parent list leaves the
node table untouched. -/
theorem foldl_attachParent_nodes (cid : Nat) :
    ∀ (ps : List (String × String)) (st : GraphState),
      (ps.foldl (attachParent cid) st).nodes = st.nodes := by
  intro ps
  induction ps with
  | nil => intro st; rfl
  | cons p ps ih => intro st; rw [List.foldl_cons, ih, attachParent_nodes]

/-- C10: `createEdge` called with an empty source name list or an empty
target name list runs neither loop, creates no edge, raises no error and
returns the initial edge id `-1` with the state unchanged. -/
theorem createEdge_empty_names (st : GraphState) (sourceType targetType : String)
    (names : NameArg) (relationship description : String) :
    createEdge st sourceType (NameArg.many []) targetType names relationship description
        = .ok (-1, st)
      ∧ createEdge st sourceType names targetType (NameArg.many []) relationship description
        = .ok (-1, st) := by
  constructor
  · rfl
  · have h : (names.toList.flatMap
        (fun s => (NameArg.many []).toList.map (fun t => (s, t)))) =
        ([] : List (String × String)) := by
      simp [NameArg.toList]
    simp only [createEdge, h, List.foldlM_nil]
    rfl

/-- C7 counterexample: creating a Knowledge node with no summary does not
fail; the call succeeds and stores the node, its summary defaulted to the
name. -/
theorem createNode_knowledge_no_summary_succeeds :
    createNode embedNone 3 GraphState.empty "knowledge" "K" "d" none none []
      = .ok (0, ⟨[⟨0, "Knowledge", "K", "d", some "K", [], none⟩], [], 1, 0⟩) := by
  rfl

/-- Helper: `toLabel` on the `knowledge` node type. -/
theorem toLabel_knowledge : toLabel "knowledge" = "Knowledge" := by decide

/-- Helper: `toLabel` on `topic`. -/
theorem toLabel_topic : toLabel "topic" = "Topic" := by decide

/-- Helper: the node record assembled for a `knowledge` creation without a
summary field, in explicit form: the summary is defaulted to the name. -/
theorem newNodeFor_knowledge_none (embed : String → Option (List ℚ)) (D : Nat)
    (st : GraphState) (name description : String) (extra : List (String × String)) :
    newNodeFor embed D st "knowledge" name description none extra
      = ⟨st.nextNodeId, "Knowledge", name, description, some name, extra,
          (embed name).map (fitToDim D)⟩ := by
  simp [newNodeFor, toLabel_knowledge]

/-- Helper: a node whose `extra` fields never bind the key `id` has no `id`
property, so it can never collide on the `knowledge_id` constraint. -/
theorem property_id_of_extra_none (n : GNode)
    (h : n.extra.find? (fun kv => kv.1 == "id") = none) :
    n.property "id" = none := by
  simp [GNode.property, h]

/-- Helper: inserting a node labelled `Knowledge` with no `id` extra field
violates no schema constraint, whatever the database holds. -/
theorem knowledge_no_violation (nodes : List GNode) (n : GNode)
    (hlab : n.label = "Knowledge")
    (hid : n.property "id" = none) :
    violatesConstraint nodes n = false := by
  simp [violatesConstraint, schemaConstraints, hlab, hid]

/-- C7 amended: a Knowledge node created without a `summary` in its
additional fields is accepted, and the stored node carries
`summary = name`. -/
theorem createNode_knowledge_defaults_summary
    (embed : String → Option (List ℚ)) (D : Nat) (st : GraphState)
    (name description : String) (belongsTo : Option (List (String × String))) :
    ∃ st2, createNode embed D st "knowledge" name description belongsTo none []
        = .ok (st.nextNodeId, st2)
      ∧ ∃ n ∈ st2.nodes, n.id = st.nextNodeId ∧ n.label = "Knowledge"
          ∧ n.name = name ∧ n.summary = some name := by
  have hnode := newNodeFor_knowledge_none embed D st name description []
  have hviol : violatesConstraint st.nodes
      (newNodeFor embed D st "knowledge" name description none []) = false := by
    rw [hnode]
    exact knowledge_no_violation _ _ rfl rfl
  refine ⟨(belongsTo.getD []).foldl
      (attachParent (newNodeFor embed D st "knowledge" name description none []).id)
      ⟨st.nodes ++ [newNodeFor embed D st "knowledge" name description none []],
        st.edges, st.nextNodeId + 1, st.nextEdgeId⟩, ?_, ?_⟩
  · simp [createNode, hviol]
  · have hnodes := foldl_attachParent_nodes
      (newNodeFor embed D st "knowledge" name description none []).id
      (belongsTo.getD [])
      ⟨st.nodes ++ [newNodeFor embed D st "knowledge" name description none []],
        st.edges, st.nextNodeId + 1, st.nextEdgeId⟩
    refine ⟨newNodeFor embed D st "knowledge" name description none [], ?_, ?_, ?_, ?_, ?_⟩
    · rw [hnodes]
      exact List.mem_append_right _ (List.mem_singleton.mpr rfl)
    · rw [hnode]
    · rw [hnode]
    · rw [hnode]
    · rw [hnode]

/-- Helper: `toLabel` on `tag`. -/
theorem toLabel_tag : toLabel "tag" = "Tag" := by decide

/-- Helper: `toLabel` on `tag_category`. -/
theorem toLabel_tag_category : toLabel "tag_category" = "TagCategory" := by decide

/-- Helper: the label of an assembled node is the converted node type. -/
theorem newNodeFor_label (embed : String → Option (List ℚ)) (D : Nat) (st : GraphState)
    (nodeType name description : String) (summaryField : Option String)
    (extra : List (String × String)) :
    (newNodeFor embed D st nodeType name description summaryField extra).label
      = toLabel nodeType := rfl

/-- Helper: the name of an assembled node is the given name. -/
theorem newNodeFor_name (embed : String → Option (List ℚ)) (D : Nat) (st : GraphState)
    (nodeType name description : String) (summaryField : Option String)
    (extra : List (String × String)) :
    (newNodeFor embed D st nodeType name description summaryField extra).name = name := rfl

/-- Helper: a node whose label has a `name` uniqueness constraint violates it
as soon as the database already holds a node with the same label and name. -/
theorem name_constraint_violation (nodes : List GNode) (n : GNode)
    (hc : Constraint.mk n.label "name" ∈ schemaConstraints)
    (m : GNode) (hm : m ∈ nodes) (hlab : m.label = n.label) (hname : m.name = n.name) :
    violatesConstraint nodes n = true := by
  rw [violatesConstraint, List.any_eq_true]
  refine ⟨⟨n.label, "name"⟩, hc, ?_⟩
  have hprop : n.property "name" = some n.name := rfl
  simp only [hprop, beq_self_eq_true, Bool.true_and]
  rw [List.any_eq_true]
  exact ⟨m, hm, by simp [GNode.property, hlab, hname]⟩

/-- C4 counterexample: `initializeSchema` creates no name-uniqueness
constraint for `Knowledge` (its constraint is on the unused `id` property),
and creating two Knowledge nodes with the same name succeeds twice instead
of failing with a duplicate-name error. -/
theorem knowledge_name_not_constrained :
    Constraint.mk "Knowledge" "name" ∉ schemaConstraints
      ∧ createNode embedNone 3 GraphState.empty "knowledge" "K" "dup" none none []
          = .ok (0, ⟨[⟨0, "Knowledge", "K", "dup", some "K", [], none⟩], [], 1, 0⟩)
      ∧ createNode embedNone 3
            ⟨[⟨0, "Knowledge", "K", "dup", some "K", [], none⟩], [], 1, 0⟩
            "knowledge" "K" "dup" none none []
          = .ok (1, ⟨[⟨0, "Knowledge", "K", "dup", some "K", [], none⟩,
                      ⟨1, "Knowledge", "K", "dup", some "K", [], none⟩], [], 2, 0⟩) := by
  refine ⟨?_, ?_, ?_⟩
  · decide
  · rfl
  · rfl

/-- C4 amended: name uniqueness is enforced for `TagCategory`, `Tag` and
`Topic` (creation of a second node with the same kind and name fails with a
duplicate-name error), while for `Knowledge` the schema constrains the unused
`id` property, so a second Knowledge node with the same name is accepted. -/
theorem schema_name_uniqueness_by_kind :
    (∀ (embed : String → Option (List ℚ)) (D : Nat) (st : GraphState)
       (nodeType name description : String)
       (belongsTo : Option (List (String × String)))
       (summaryField : Option String) (extra : List (String × String)),
       nodeType ∈ ["tag_category", "tag", "topic"] →
       (∃ m ∈ st.nodes, m.label = toLabel nodeType ∧ m.name = name) →
       createNode embed D st nodeType name description belongsTo summaryField extra
         = .error (.duplicateName (toLabel nodeType) name))
    ∧ (∀ (embed : String → Option (List ℚ)) (D : Nat) (st : GraphState)
        (name description : String)
        (belongsTo : Option (List (String × String))) (summaryField : Option String),
        ∃ st2, createNode embed D st "knowledge" name description belongsTo summaryField []
          = .ok (st.nextNodeId, st2)) := by
  constructor
  · intro embed D st nodeType name description belongsTo summaryField extra hkind hdup
    obtain ⟨m, hm, hlab, hname⟩ := hdup
    have hviol : violatesConstraint st.nodes
        (newNodeFor embed D st nodeType name description summaryField extra) = true := by
      refine name_constraint_violation st.nodes _ ?_ m hm ?_ ?_
      · rw [newNodeFor_label]
        fin_cases hkind
        · rw [toLabel_tag_category]; decide
        · rw [toLabel_tag]; decide
        · rw [toLabel_topic]; decide
      · rw [newNodeFor_label]; exact hlab
      · rw [newNodeFor_name]; exact hname
    simp only [createNode, hviol, if_true]
    rfl
  · intro embed D st name description belongsTo summaryField
    have hviol : violatesConstraint st.nodes
        (newNodeFor embed D st "knowledge" name description summaryField []) = false := by
      refine knowledge_no_violation st.nodes _ ?_ rfl
      rw [newNodeFor_label, toLabel_knowledge]
    refine ⟨(belongsTo.getD []).foldl
        (attachParent (newNodeFor embed D st "knowledge" name description summaryField []).id)
        ⟨st.nodes ++ [newNodeFor embed D st "knowledge" name description summaryField []],
          st.edges, st.nextNodeId + 1, st.nextEdgeId⟩, ?_⟩
    simp [createNode, hviol]

/-- C4 witness: duplicate-Topic creation fails with `DuplicateName` on a
concrete one-node database, and Knowledge creation succeeds there. -/
theorem schema_name_uniqueness_by_kind_witness :
    createNode embedNone 1 ⟨[⟨0, "Topic", "T", "", none, [], none⟩], [], 1, 0⟩
        "topic" "T" "again" none none []
        = .error (.duplicateName (toLabel "topic") "T")
      ∧ ∃ st2, createNode embedNone 1 ⟨[⟨0, "Topic", "T", "", none, [], none⟩], [], 1, 0⟩
          "knowledge" "T" "k" none none [] = .ok (1, st2) := by
  constructor
  · exact schema_name_uniqueness_by_kind.1 embedNone 1
      ⟨[⟨0, "Topic", "T", "", none, [], none⟩], [], 1, 0⟩
      "topic" "T" "again" none none [] (by decide)
      ⟨⟨0, "Topic", "T", "", none, [], none⟩, by simp, by rw [toLabel_topic], rfl⟩
  · exact schema_name_uniqueness_by_kind.2 embedNone 1
      ⟨[⟨0, "Topic", "T", "", none, [], none⟩], [], 1, 0⟩ "T" "k" none none

/-- C9: `createNode` with a `belongsTo` entry naming a parent that does not
exist still succeeds and returns the new node's id; no `BELONGS_TO` edge is
created and no error is raised.  The hypotheses say that the new node itself
passes the uniqueness constraints, that no stored node matches the parent
reference, and that the new node does not match it either. -/
theorem createNode_missing_parent (embed : String → Option (List ℚ)) (D : Nat)
    (st : GraphState) (nodeType name description ptype pname : String)
    (summaryField : Option String) (extra : List (String × String))
    (hok : violatesConstraint st.nodes
      (newNodeFor embed D st nodeType name description summaryField extra) = false)
    (habsent : ∀ m ∈ st.nodes, ¬(m.label = toLabel ptype ∧ m.name = pname))
    (hself : ¬(toLabel nodeType = toLabel ptype ∧ name = pname)) :
    ∃ st2, createNode embed D st nodeType name description
        (some [(ptype, pname)]) summaryField extra = .ok (st.nextNodeId, st2)
      ∧ st2.edges = st.edges
      ∧ st2.nodes = st.nodes
          ++ [newNodeFor embed D st nodeType name description summaryField extra] := by
  have hfilter : ((st.nodes
      ++ [newNodeFor embed D st nodeType name description summaryField extra]).filter
      (fun m => m.label == toLabel ptype && m.name == pname)) = [] := by
    rw [List.filter_eq_nil_iff]
    intro m hm
    simp only [Bool.and_eq_true, beq_iff_eq, not_and]
    rcases List.mem_append.mp hm with h | h
    · intro h1 h2; exact habsent m h ⟨h1, h2⟩
    · rw [List.mem_singleton.mp h]
      intro h1 h2
      exact hself ⟨h1, h2⟩
  refine ⟨attachParent
      (newNodeFor embed D st nodeType name description summaryField extra).id
      ⟨st.nodes ++ [newNodeFor embed D st nodeType name description summaryField extra],
        st.edges, st.nextNodeId + 1, st.nextEdgeId⟩ (ptype, pname), ?_, ?_, ?_⟩
  · simp [createNode, hok]
  · show (GraphState.edges _) = st.edges
    simp [attachParent, hfilter]
  · exact attachParent_nodes _ _ _

/-- C9 witness: on the empty database, creating a topic whose `belongsTo`
names a missing parent succeeds with id `0` and creates no edge. -/
theorem createNode_missing_parent_witness :
    ∃ st2, createNode embedNone 1 GraphState.empty "topic" "T" "d"
        (some [("topic", "Missing")]) none [] = .ok (GraphState.empty.nextNodeId, st2)
      ∧ st2.edges = GraphState.empty.edges
      ∧ st2.nodes = GraphState.empty.nodes
          ++ [newNodeFor embedNone 1 GraphState.empty "topic" "T" "d" none []] :=
  createNode_missing_parent embedNone 1 GraphState.empty "topic" "T" "d" "topic" "Missing"
    none [] (by decide) (by simp [GraphState.empty]) (by decide)

/-- Helper: the sanitizing passes preserve length. -/
theorem sanitize_length (raw : List (Option JSNum)) :
    (sanitize raw).length = raw.length := by
  simp [sanitize]

/-- Helper: dimension correction always yields exactly the configured number
of entries. -/
theorem fitToDim_length (D : Nat) (v : List ℚ) : (fitToDim D v).length = D := by
  unfold fitToDim
  split_ifs with h1 h2
  · simp only [List.length_take]
    omega
  · simp only [List.length_append, List.length_replicate]
    omega
  · omega

/-- Helper: folding JavaScript additions of finite numbers over a range is
the finite sum. -/
theorem foldl_add_num (g : Nat → ℚ) (a : ℚ) :
    ∀ n, (List.range n).foldl (fun acc i => acc.add (JSNum.num (g i))) (JSNum.num a)
      = JSNum.num (a + ∑ i ∈ Finset.range n, g i) := by
  intro n
  induction n with
  | zero => simp
  | succ n ih =>
    rw [List.range_succ, List.foldl_append, ih]
    simp only [List.foldl_cons, List.foldl_nil, JSNum.add, Finset.sum_range_succ]
    rw [add_assoc]

/-- Helper: the token-axis sum of a fully numeric tensor buffer of the right
size is the finite sum of the addressed entries. -/
theorem sumTokens_map_num (qs : List ℚ) (T Dp d : Nat)
    (hlen : qs.length = T * Dp) (hd : d < Dp) :
    sumTokens (qs.map JSNum.num) T Dp d
      = JSNum.num (∑ t ∈ Finset.range T, qs.getD (t * Dp + d) 0) := by
  unfold sumTokens
  have hstep : ∀ (acc : JSNum), ∀ t ∈ List.range T,
      acc.add (tensorAt (qs.map JSNum.num) (t * Dp + d))
        = acc.add (JSNum.num (qs.getD (t * Dp + d) 0)) := by
    intro acc t ht
    have htT : t < T := List.mem_range.mp ht
    have hidx : t * Dp + d < qs.length := by
      rw [hlen]
      calc t * Dp + d < t * Dp + Dp := by omega
        _ = (t + 1) * Dp := by ring
        _ ≤ T * Dp := Nat.mul_le_mul_right Dp htT
    have : tensorAt (qs.map JSNum.num) (t * Dp + d) = JSNum.num (qs.getD (t * Dp + d) 0) := by
      unfold tensorAt
      rw [List.get?_eq_getElem?, List.getElem?_map, List.getElem?_eq_getElem hidx]
      simp [List.getD_eq_getElem?_getD, List.getElem?_eq_getElem hidx]
    rw [this]
  rw [List.foldl_ext _ _ _ hstep, foldl_add_num, zero_add]

/-- C5: for every raw model output, the embedding pipeline yields a vector of
exactly `D` entries; a `1 × T × Dp` tensor is mean-pooled across the token
axis (entry `d` is the sum over tokens divided by `T`); and entries that were
null or NaN in the raw vector are coerced to `0`. -/
theorem generateEmbedding_spec :
    (∀ (D : Nat) (out : EmbedOutput) (v : List ℚ),
        generateEmbedding D out = some v → v.length = D)
      ∧ (∀ (T Dp : Nat) (qs : List ℚ) (d : Nat), 0 < T → qs.length = T * Dp → d < Dp →
          (meanPool T Dp (qs.map JSNum.num)).get? d
            = some (JSNum.num ((∑ t ∈ Finset.range T, qs.getD (t * Dp + d) 0) / T)))
      ∧ (∀ (raw : List (Option JSNum)) (i : Nat),
          raw.get? i = some none ∨ raw.get? i = some (some JSNum.nan) →
          (sanitize raw).get? i = some 0) := by
  refine ⟨?_, ?_, ?_⟩
  · intro D out v h
    unfold generateEmbedding at h
    rcases Option.map_eq_some'.mp h with ⟨raw, _, hfit⟩
    rw [← hfit]
    exact fitToDim_length D (sanitize raw)
  · intro T Dp qs d hT hlen hd
    unfold meanPool
    rw [List.get?_eq_getElem?, List.getElem?_map, List.getElem?_range hd]
    rw [Option.map_some', sumTokens_map_num qs T Dp d hlen hd]
    cases T with
    | zero => omega
    | succ n => rfl
  · intro raw i h
    unfold sanitize
    rcases h with h | h <;>
      rw [List.get?_eq_getElem?] at h ⊢ <;>
      rw [List.getElem?_map, List.getElem?_map, h] <;> rfl

/-- C5 witness: the pipeline at a concrete `1 × 2 × 2` tensor with
configured dimension `3`: pooled entries, length and NaN coercion. -/
theorem generateEmbedding_spec_witness :
    ((fitToDim 3 (sanitize ((meanPool 2 2 ([1, 2, 3, 5].map JSNum.num)).map some))).length = 3)
      ∧ (meanPool 2 2 ([1, 2, 3, 5].map JSNum.num)).get? 0
          = some (JSNum.num ((∑ t ∈ Finset.range 2, [(1 : ℚ), 2, 3, 5].getD (t * 2 + 0) 0) / 2))
      ∧ (sanitize [some JSNum.nan]).get? 0 = some 0 :=
  ⟨generateEmbedding_spec.1 3 (EmbedOutput.tensor 2 2 ([1, 2, 3, 5].map JSNum.num))
      (fitToDim 3 (sanitize ((meanPool 2 2 ([1, 2, 3, 5].map JSNum.num)).map some))) rfl,
    generateEmbedding_spec.2.1 2 2 [1, 2, 3, 5] 0 (by decide) (by decide) (by decide),
    generateEmbedding_spec.2.2 [some JSNum.nan] 0 (Or.inr rfl)⟩

/-- C6 amended: every vector search result is sorted by score in
non-increasing order — both on the similarity path (whose Cypher orders by
`score DESC`) and on the unscored fallback (where every placeholder score is
`1.0`).  No id tie-break exists: rows with equal scores keep the database's
enumeration order. -/
theorem vectorSearch_sorted_by_score :
    (∀ (sim : List ℚ → List ℚ → ℚ) (embed : String → Option (List ℚ))
       (st : GraphState) (nodeType text : String) (limit : Nat) (minSimilarity : ℚ)
       (rows : List SearchRow),
       vectorSearch sim embed st nodeType text limit minSimilarity = some rows →
       List.Sorted rowBefore rows)
    ∧ (∀ (st : GraphState) (nodeType : String) (limit : Nat),
        List.Sorted rowBefore (vectorSearchFallback st nodeType limit)) := by
  constructor
  · intro sim embed st nodeType text limit minSimilarity rows h
    rcases Option.map_eq_some'.mp h with ⟨qe, _, hrank⟩
    rw [← hrank]
    unfold rankRows
    exact (List.sorted_insertionSort rowBefore _).sublist (List.take_sublist _ _)
  · intro st nodeType limit
    unfold vectorSearchFallback
    refine List.pairwise_of_forall_mem_list ?_
    intro a ha b hb
    have hsa : a.score = 1 := by
      rcases List.mem_map.mp (List.mem_of_mem_take ha) with ⟨n, _, hn⟩
      rw [← hn]
    have hsb : b.score = 1 := by
      rcases List.mem_map.mp (List.mem_of_mem_take hb) with ⟨n, _, hn⟩
      rw [← hn]
    show b.score ≤ a.score
    rw [hsa, hsb]

/-- C6 counterexample: the ordering clause has no id tie-break.  On a
database whose enumeration order lists the node with id `2` before the node
with id `1`, a search in which both score `1` returns the higher id first,
with equal scores. -/
theorem vectorSearch_no_id_tiebreak :
    vectorSearch simExact embedUnit
        ⟨[⟨2, "Topic", "b", "", none, [], some [1]⟩,
          ⟨1, "Topic", "a", "", none, [], some [1]⟩], [], 3, 0⟩
        "topic" "q" 10 0
      = some [⟨2, "b", "", 1⟩, ⟨1, "a", "", 1⟩] := by
  decide

/-- C6 witness: sortedness evaluated on a concrete two-node search and on a
concrete fallback. -/
theorem vectorSearch_sorted_by_score_witness :
    List.Sorted rowBefore [SearchRow.mk 2 "b" "" 1, SearchRow.mk 1 "a" "" 1]
      ∧ List.Sorted rowBefore (vectorSearchFallback GraphState.empty "topic" 5) :=
  ⟨vectorSearch_sorted_by_score.1 simExact embedUnit
      ⟨[⟨2, "Topic", "b", "", none, [], some [1]⟩,
        ⟨1, "Topic", "a", "", none, [], some [1]⟩], [], 3, 0⟩
      "topic" "q" 10 0 [⟨2, "b", "", 1⟩, ⟨1, "a", "", 1⟩] (by decide),
    vectorSearch_sorted_by_score.2 GraphState.empty "topic" 5⟩

/-- Helper: `createNode` in explicit successful form, given that the new
node passes the uniqueness constraints. -/
theorem createNode_ok_of_no_violation (embed : String → Option (List ℚ)) (D : Nat)
    (st : GraphState) (nodeType name description : String)
    (belongsTo : Option (List (String × String)))
    (summaryField : Option String) (extra : List (String × String))
    (h : violatesConstraint st.nodes
      (newNodeFor embed D st nodeType name description summaryField extra) = false) :
    createNode embed D st nodeType name description belongsTo summaryField extra
      = .ok (st.nextNodeId, (belongsTo.getD []).foldl
          (attachParent (newNodeFor embed D st nodeType name description
            summaryField extra).id)
          ⟨st.nodes ++ [newNodeFor embed D st nodeType name description summaryField extra],
            st.edges, st.nextNodeId + 1, st.nextEdgeId⟩) := by
  simp [createNode, h]

/-- Helper: inserting a node labelled `Topic` violates no constraint when no
stored node is a topic of the same name. -/
theorem topic_no_violation (nodes : List GNode) (n : GNode)
    (hlab : n.label = "Topic")
    (h : ∀ m ∈ nodes, ¬(m.label = "Topic" ∧ m.name = n.name)) :
    violatesConstraint nodes n = false := by
  rw [violatesConstraint]
  apply List.any_eq_false.mpr
  intro c hc
  have hprop : n.property "name" = some n.name := rfl
  fin_cases hc
  · simp only [hlab, hprop, beq_self_eq_true, Bool.true_and, Bool.not_eq_true]
    apply List.any_eq_false.mpr
    intro m hm
    simp only [Bool.and_eq_true, beq_iff_eq, not_and]
    intro h1 h2
    exact h m hm ⟨h1, by simpa [GNode.property] using h2⟩
  · simp [hlab]
  · simp [hlab]
  · simp [hlab]

/-- Helper: the writeback's knowledge node is labelled `Knowledge` and binds
no `id` property, so its creation always succeeds. -/
theorem writebackKnowledgeNode_no_violation (nodes : List GNode)
    (embed : String → Option (List ℚ)) (D : Nat) (st : GraphState)
    (query : String) (userMsg assistantMsg : Msg) :
    violatesConstraint nodes
      (writebackKnowledgeNode embed D st query userMsg assistantMsg) = false := by
  refine knowledge_no_violation nodes _ ?_ ?_
  · show toLabel "knowledge" = "Knowledge"
    exact toLabel_knowledge
  · rfl

/-- Helper: the `belongsTo` step for a `(topic, query)` parent reference, in
explicit form: every stored node passing the `topicNamed` filter receives one
`BELONGS_TO` edge from the child. -/
theorem attachParent_topic (childId : Nat) (ns : List GNode) (es : List GEdge)
    (ni ne : Nat) (query : String) :
    attachParent childId ⟨ns, es, ni, ne⟩ ("topic", query)
      = ⟨ns, es ++ (ns.filter (topicNamed query)).enum.map
            (fun im => GEdge.mk (ne + im.1) childId im.2.id "BELONGS_TO" none none),
          ni, ne + (ns.filter (topicNamed query)).length⟩ := by
  unfold attachParent
  rw [toLabel_topic]
  rfl

/-- Helper: the writeback's knowledge node never passes the `topicNamed`
filter (its label is `Knowledge`), so appending it changes no parent match. -/
theorem filter_topicNamed_append_knowledge (l : List GNode)
    (embed : String → Option (List ℚ)) (D : Nat) (stBase : GraphState)
    (query : String) (userMsg assistantMsg : Msg) :
    ((l ++ [newNodeFor embed D stBase "knowledge" (conversationName query)
        (conversationData userMsg assistantMsg) (some (conversationSummary userMsg))
        [("data", conversationData userMsg assistantMsg)]]).filter
        (topicNamed query))
      = l.filter (topicNamed query) := by
  rw [List.filter_append]
  have hk : (newNodeFor embed D stBase "knowledge" (conversationName query)
      (conversationData userMsg assistantMsg) (some (conversationSummary userMsg))
      [("data", conversationData userMsg assistantMsg)]).label
      = "Knowledge" := toLabel_knowledge
  have h2 : (List.filter (topicNamed query)
      [newNodeFor embed D stBase "knowledge" (conversationName query)
        (conversationData userMsg assistantMsg) (some (conversationSummary userMsg))
        [("data", conversationData userMsg assistantMsg)]]) = [] := by
    simp [topicNamed, hk]
  rw [h2, List.append_nil]

/-- C8 amended: the writeback locates the topic by a `k = 1` vector search
with minimum similarity `0.9`, not by exact name.  When the search returns a
row (of nonzero id), no topic is created and the knowledge node's
`BELONGS_TO` edges attach exactly to the stored topics whose name equals the
query.  When the search is empty (and no stored topic bears the query as
name, and ids stay nonzero), a topic named after the query is created and
the knowledge node is linked to it. -/
theorem updateKnowledgeGraph_vector_lookup
    (sim : List ℚ → List ℚ → ℚ) (embed : String → Option (List ℚ)) (D : Nat)
    (st : GraphState) (query : String) (messages : List Msg)
    (userMsg assistantMsg : Msg) (qe : List ℚ)
    (hu : messages.find? (fun m => m.role == "user") = some userMsg)
    (ha : messages.find? (fun m => m.role == "assistant") = some assistantMsg)
    (hqe : embed query = some qe) :
    (∀ r rs, rankRows (scoreRows sim qe "Topic" st.nodes) (9/10) 1 = r :: rs →
      r.id ≠ 0 →
      updateKnowledgeGraph sim embed D st query messages =
        ⟨st.nodes ++ [writebackKnowledgeNode embed D st query userMsg assistantMsg],
         st.edges ++ (st.nodes.filter (topicNamed query)).enum.map
           (fun im => GEdge.mk (st.nextEdgeId + im.1) st.nextNodeId im.2.id
             "BELONGS_TO" none none),
         st.nextNodeId + 1,
         st.nextEdgeId + (st.nodes.filter (topicNamed query)).length⟩)
    ∧ (rankRows (scoreRows sim qe "Topic" st.nodes) (9/10) 1 = [] →
       (∀ m ∈ st.nodes, ¬(m.label = "Topic" ∧ m.name = query)) →
       st.nextNodeId ≠ 0 →
       updateKnowledgeGraph sim embed D st query messages =
         ⟨(st.nodes ++ [newNodeFor embed D st "topic" query
             ("Topic based on user query: " ++ query) none []])
           ++ [writebackKnowledgeNode embed D
                ⟨st.nodes ++ [newNodeFor embed D st "topic" query
                   ("Topic based on user query: " ++ query) none []],
                  st.edges, st.nextNodeId + 1, st.nextEdgeId⟩
                query userMsg assistantMsg],
          st.edges ++ [GEdge.mk st.nextEdgeId (st.nextNodeId + 1) st.nextNodeId
            "BELONGS_TO" none none],
          st.nextNodeId + 2, st.nextEdgeId + 1⟩) := by
  constructor
  · intro r rs hres hr0
    unfold updateKnowledgeGraph
    rw [hu, ha]
    show (match vectorSearch sim embed st "topic" query 1 (9/10) with
      | none => st
      | some results =>
        (match results with
         | [] =>
           (match createNode embed D st "topic" query
               ("Topic based on user query: " ++ query) none none [] with
            | .error _ => st
            | .ok (tid, st1) =>
              finishWriteback embed D st1 (some tid) query userMsg assistantMsg)
         | r :: _ =>
           finishWriteback embed D st (some r.id) query userMsg assistantMsg)) = _
    unfold vectorSearch
    rw [hqe, Option.map_some', toLabel_topic, hres]
    show finishWriteback embed D st (some r.id) query userMsg assistantMsg = _
    unfold finishWriteback
    show (if r.id = 0 then _ else _) = _
    rw [if_neg hr0]
    rw [createNode_ok_of_no_violation embed D st "knowledge" (conversationName query)
      (conversationData userMsg assistantMsg) (some [("topic", query)])
      (some (conversationSummary userMsg))
      [("data", conversationData userMsg assistantMsg)]
      (writebackKnowledgeNode_no_violation st.nodes embed D st query userMsg assistantMsg)]
    show List.foldl _ _ [("topic", query)] = _
    rw [List.foldl_cons, List.foldl_nil, attachParent_topic,
      filter_topicNamed_append_knowledge st.nodes embed D st query userMsg assistantMsg]
    rfl

  · intro hres habsent hid
    unfold updateKnowledgeGraph
    rw [hu, ha]
    show (match vectorSearch sim embed st "topic" query 1 (9/10) with
      | none => st
      | some results =>
        (match results with
         | [] =>
           (match createNode embed D st "topic" query
               ("Topic based on user query: " ++ query) none none [] with
            | .error _ => st
            | .ok (tid, st1) =>
              finishWriteback embed D st1 (some tid) query userMsg assistantMsg)
         | r :: _ =>
           finishWriteback embed D st (some r.id) query userMsg assistantMsg)) = _
    unfold vectorSearch
    rw [hqe, Option.map_some', toLabel_topic, hres]
    have htnode : (newNodeFor embed D st "topic" query
        ("Topic based on user query: " ++ query) none []).label = "Topic" := by
      rw [newNodeFor_label, toLabel_topic]
    have htname : (newNodeFor embed D st "topic" query
        ("Topic based on user query: " ++ query) none []).name = query := rfl
    have hviol : violatesConstraint st.nodes
        (newNodeFor embed D st "topic" query
          ("Topic based on user query: " ++ query) none []) = false := by
      refine topic_no_violation st.nodes _ htnode ?_
      intro m hm
      rw [htname]
      exact habsent m hm
    rw [createNode_ok_of_no_violation embed D st "topic" query
      ("Topic based on user query: " ++ query) none none [] hviol]
    show finishWriteback embed D
        ⟨st.nodes ++ [newNodeFor embed D st "topic" query
           ("Topic based on user query: " ++ query) none []],
          st.edges, st.nextNodeId + 1, st.nextEdgeId⟩
        (some st.nextNodeId) query userMsg assistantMsg = _
    unfold finishWriteback
    show (if st.nextNodeId = 0 then _ else _) = _
    rw [if_neg hid]
    rw [createNode_ok_of_no_violation embed D _ "knowledge" (conversationName query)
      (conversationData userMsg assistantMsg) (some [("topic", query)])
      (some (conversationSummary userMsg))
      [("data", conversationData userMsg assistantMsg)]
      (writebackKnowledgeNode_no_violation _ embed D _ query userMsg assistantMsg)]
    dsimp only
    show List.foldl _ _ [("topic", query)] = _
    have hfilter : ((st.nodes ++ [newNodeFor embed D st "topic" query
        ("Topic based on user query: " ++ query) none []]).filter (topicNamed query))
        = [newNodeFor embed D st "topic" query
            ("Topic based on user query: " ++ query) none []] := by
      rw [List.filter_append]
      have h1 : st.nodes.filter (topicNamed query) = [] := by
        rw [List.filter_eq_nil_iff]
        intro m hm
        simp only [topicNamed, Bool.and_eq_true, beq_iff_eq, not_and]
        intro h1 h2
        exact habsent m hm ⟨h1, h2⟩
      rw [h1]
      simp [topicNamed, htnode, htname]
    rw [List.foldl_cons, List.foldl_nil, attachParent_topic,
      filter_topicNamed_append_knowledge (st.nodes ++ [newNodeFor embed D st "topic" query
        ("Topic based on user query: " ++ query) none []]) embed D _ query
        userMsg assistantMsg, hfilter]
    rfl

/-- Helper: the writeback's similarity threshold is at most a full-match
score. -/
theorem nine_tenths_le_one : (9 : ℚ)/10 ≤ 1 := by norm_num

/-- C8 counterexample: with one stored topic named `A` whose embedding is
similar to the query `Q` (score `1 ≥ 0.9`) and no topic named exactly `Q`,
the writeback creates no new topic (the topic table still only holds `A`)
and attaches no `BELONGS_TO` edge at all — the claim's exact-name lookup
with topic creation on miss does not happen. -/
theorem writeback_ignores_exact_name :
    ((updateKnowledgeGraph simExact embedUnit 1
        ⟨[⟨1, "Topic", "A", "topic A", none, [], some [1]⟩], [], 2, 0⟩
        "Q" [⟨"user", "Q"⟩, ⟨"assistant", "R"⟩]).nodes.filter
        (fun n => n.label == "Topic")).map (fun n => n.name) = ["A"]
      ∧ (updateKnowledgeGraph simExact embedUnit 1
          ⟨[⟨1, "Topic", "A", "topic A", none, [], some [1]⟩], [], 2, 0⟩
          "Q" [⟨"user", "Q"⟩, ⟨"assistant", "R"⟩]).edges = [] := by
  have hvs : vectorSearch simExact embedUnit
      ⟨[⟨1, "Topic", "A", "topic A", none, [], some [1]⟩], [], 2, 0⟩
      "topic" "Q" 1 (9/10) = some [⟨1, "A", "topic A", 1⟩] := by
    unfold vectorSearch rankRows scoreRows
    simp [embedUnit, simExact, toLabel_topic, List.insertionSort, List.orderedInsert,
      nine_tenths_le_one]
  constructor
  · unfold updateKnowledgeGraph
    rw [hvs]
    exact rfl
  · unfold updateKnowledgeGraph
    rw [hvs]
    exact rfl

/-- C8 witness: with one stored topic named exactly like the query, the
vector lookup finds it (score `1`) and the writeback attaches the new
knowledge node to it by a `BELONGS_TO` edge. -/
theorem updateKnowledgeGraph_vector_lookup_witness :
    updateKnowledgeGraph simExact embedUnit 1
        ⟨[⟨1, "Topic", "Q", "d", none, [], some [1]⟩], [], 2, 0⟩ "Q"
        [⟨"user", "Q"⟩, ⟨"assistant", "R"⟩]
      = ⟨[⟨1, "Topic", "Q", "d", none, [], some [1]⟩]
           ++ [writebackKnowledgeNode embedUnit 1
                ⟨[⟨1, "Topic", "Q", "d", none, [], some [1]⟩], [], 2, 0⟩
                "Q" ⟨"user", "Q"⟩ ⟨"assistant", "R"⟩],
         [] ++ (([⟨1, "Topic", "Q", "d", none, [], some [1]⟩].filter
             (topicNamed "Q")).enum.map
           (fun im => GEdge.mk (0 + im.1) 2 im.2.id "BELONGS_TO" none none)),
         3, 0 + ([⟨1, "Topic", "Q", "d", none, [], some [1]⟩].filter
             (topicNamed "Q")).length⟩ :=
  (updateKnowledgeGraph_vector_lookup simExact embedUnit 1
      ⟨[⟨1, "Topic", "Q", "d", none, [], some [1]⟩], [], 2, 0⟩ "Q"
      [⟨"user", "Q"⟩, ⟨"assistant", "R"⟩] ⟨"user", "Q"⟩ ⟨"assistant", "R"⟩ [1]
      rfl rfl rfl).1 ⟨1, "Q", "d", 1⟩ []
    (by
      unfold rankRows scoreRows
      simp [simExact, List.insertionSort, List.orderedInsert, nine_tenths_le_one])
    (by decide)

/-- Helper: thinking chunks are never interruption chunks. -/
theorem thinkingChunks_no_interruption (cfg : StreamCfg) (v : Verdict) :
    (thinkingChunks cfg v).countP OutChunk.isInterruption = 0 := by
  unfold thinkingChunks
  split_ifs <;> rfl

/-- Helper: one loop iteration emits an interruption chunk only by spending
the request's single interruption budget: the chunk count plus the remaining
budget never exceeds the entering budget. -/
theorem streamStep_interruption_bound (cfg : StreamCfg) (st : LoopState) (d : Delta)
    (poll : Option Verdict) :
    (streamStep cfg st d poll).2.1.countP OutChunk.isInterruption
        + cond (streamStep cfg st d poll).1.hasExecutiveInterrupted 0 1
      ≤ cond st.hasExecutiveInterrupted 0 1 := by
  unfold streamStep
  have hfwd : (if cfg.isJsonMode && d.content ≠ "" then []
      else [OutChunk.speaker d.content d.hasToolCalls]).countP OutChunk.isInterruption
      = 0 := by
    split_ifs <;> rfl
  cases hst : st.hasExecutiveInterrupted with
  | true =>
    simp only [hst, Bool.not_true, Bool.false_and, Bool.false_eq_true, if_false,
      Bool.true_or, if_neg, cond_true]
    simp [hfwd, OutChunk.isInterruption]
  | false =>
    cases poll with
    | none =>
      simp only [hst, Bool.not_false, if_true, cond_false, cond_true]
      simp [hfwd, OutChunk.isInterruption]
    | some v =>
      cases hact : v.action == "interrupt" with
      | true =>
        simp only [hst, Bool.not_false, if_true, hact, cond_false]
        simp [List.countP_append, hfwd, thinkingChunks_no_interruption,
          List.countP_cons, OutChunk.isInterruption]
      | false =>
        simp only [hst, Bool.not_false, if_true, hact, cond_false]
        simp [List.countP_append, hfwd, thinkingChunks_no_interruption,
          OutChunk.isInterruption]

/-- Helper: the forward loop as a whole respects the interruption budget. -/
theorem runLoop_interruption_bound (cfg : StreamCfg) :
    ∀ (deltas : List Delta) (polls : List (Option Verdict)) (st : LoopState),
      (runLoop cfg st deltas polls).2.1.countP OutChunk.isInterruption
          + cond (runLoop cfg st deltas polls).1.hasExecutiveInterrupted 0 1
        ≤ cond st.hasExecutiveInterrupted 0 1 := by
  intro deltas
  induction deltas with
  | nil => intro polls st; simp [runLoop]
  | cons d ds ih =>
    intro polls st
    have hstep := streamStep_interruption_bound cfg st d (polls.headD none)
    have hrest := ih polls.tail (streamStep cfg st d (polls.headD none)).1
    show ((streamStep cfg st d (polls.headD none)).2.1
        ++ (runLoop cfg (streamStep cfg st d (polls.headD none)).1 ds polls.tail).2.1).countP
          OutChunk.isInterruption
        + cond (runLoop cfg (streamStep cfg st d (polls.headD none)).1 ds
            polls.tail).1.hasExecutiveInterrupted 0 1
      ≤ cond st.hasExecutiveInterrupted 0 1
    rw [List.countP_append]
    omega

/-- Helper: the final verdict check emits an interruption only when the
budget is still unspent. -/
theorem finalCheck_interruption_bound (cfg : StreamCfg) (st : LoopState)
    (finalVerdict : Option Verdict) :
    (finalCheck cfg st finalVerdict).countP OutChunk.isInterruption
      ≤ cond st.hasExecutiveInterrupted 0 1 := by
  unfold finalCheck
  cases hst : st.hasExecutiveInterrupted with
  | true => simp
  | false =>
    cases finalVerdict with
    | none => simp
    | some v =>
      cases hact : v.action == "interrupt" with
      | true =>
        simp only [hst, hact, if_true, cond_false]
        simp [List.countP_append, thinkingChunks_no_interruption,
          List.countP_cons, OutChunk.isInterruption]
      | false =>
        simp only [hst, hact, Bool.false_eq_true, if_false, cond_false]
        simp [thinkingChunks_no_interruption]

/-- C1: for every streaming request — any delta stream, any verdict-poll
schedule, any final verdict, any failure mode — at most one interruption
chunk is written to the SSE stream; once the latch is set, later `interrupt`
verdicts are never consumed. -/
theorem at_most_one_interruption (cfg : StreamCfg) (deltas : List Delta)
    (polls : List (Option Verdict)) (finalVerdict : Option Verdict)
    (speakerError : Option String) (parsedOk : Bool) :
    (runStream cfg deltas polls finalVerdict speakerError parsedOk).1.countP
      OutChunk.isInterruption ≤ 1 := by
  have hrole : ([OutChunk.roleChunk]).countP OutChunk.isInterruption = 0 := rfl
  have hdebug : (if cfg.debug then [OutChunk.debugEcho] else []).countP
      OutChunk.isInterruption = 0 := by
    split_ifs <;> rfl
  have hloop := runLoop_interruption_bound cfg deltas polls LoopState.init
  rw [show cond LoopState.init.hasExecutiveInterrupted 0 1 = 1 from rfl] at hloop
  have hjson : (jsonTail cfg (runLoop cfg LoopState.init deltas polls).1
      parsedOk).countP OutChunk.isInterruption = 0 := by
    unfold jsonTail
    split_ifs <;> rfl
  unfold runStream
  cases speakerError with
  | some msg =>
    simp only [List.countP_append, hrole, hdebug]
    have herr : ([OutChunk.errorChunk msg, OutChunk.done]).countP OutChunk.isInterruption
        = 0 := rfl
    omega
  | none =>
    have hfinal := finalCheck_interruption_bound cfg
      (runLoop cfg LoopState.init deltas polls).1 finalVerdict
    simp only [List.countP_append, hrole, hdebug, hjson]
    have hstop : ([OutChunk.finalStop, OutChunk.done]).countP OutChunk.isInterruption
        = 0 := rfl
    omega

/-- Helper: a list extended with a final pair ends in the pair's second
element. -/
theorem getLast?_append_pair {α : Type} (l : List α) (a b : α) :
    (l ++ [a, b]).getLast? = some b := by
  rw [show [a, b] = [a] ++ [b] from rfl, ← List.append_assoc]
  exact List.getLast?_concat _

/-- Helper: one loop iteration writes no `DONE` sentinel. -/
theorem streamStep_no_done (cfg : StreamCfg) (st : LoopState) (d : Delta)
    (poll : Option Verdict) :
    (streamStep cfg st d poll).2.1.countP OutChunk.isDone = 0 := by
  unfold streamStep
  have hth : ∀ v, (thinkingChunks cfg v).countP OutChunk.isDone = 0 := by
    intro v
    unfold thinkingChunks
    split_ifs <;> rfl
  have hfwd : (if cfg.isJsonMode && d.content ≠ "" then []
      else [OutChunk.speaker d.content d.hasToolCalls]).countP OutChunk.isDone = 0 := by
    split_ifs <;> rfl
  cases st.hasExecutiveInterrupted with
  | true => simp [hfwd, OutChunk.isDone]
  | false =>
    cases poll with
    | none => simp [hfwd, OutChunk.isDone]
    | some v =>
      cases hact : v.action == "interrupt" with
      | true =>
        simp [hact, List.countP_append, hfwd, hth, List.countP_cons, OutChunk.isDone]
      | false => simp [hact, List.countP_append, hfwd, hth, OutChunk.isDone]

/-- Helper: the forward loop as a whole writes no `DONE` sentinel. -/
theorem runLoop_no_done (cfg : StreamCfg) :
    ∀ (deltas : List Delta) (polls : List (Option Verdict)) (st : LoopState),
      (runLoop cfg st deltas polls).2.1.countP OutChunk.isDone = 0 := by
  intro deltas
  induction deltas with
  | nil => intro polls st; rfl
  | cons d ds ih =>
    intro polls st
    show ((streamStep cfg st d (polls.headD none)).2.1
        ++ (runLoop cfg (streamStep cfg st d (polls.headD none)).1 ds
            polls.tail).2.1).countP OutChunk.isDone = 0
    rw [List.countP_append, streamStep_no_done,
      ih polls.tail (streamStep cfg st d (polls.headD none)).1]

/-- Helper: the final verdict check writes no `DONE` sentinel. -/
theorem finalCheck_no_done (cfg : StreamCfg) (st : LoopState)
    (finalVerdict : Option Verdict) :
    (finalCheck cfg st finalVerdict).countP OutChunk.isDone = 0 := by
  unfold finalCheck
  have hth : ∀ v, (thinkingChunks cfg v).countP OutChunk.isDone = 0 := by
    intro v
    unfold thinkingChunks
    split_ifs <;> rfl
  cases st.hasExecutiveInterrupted with
  | true => simp
  | false =>
    cases finalVerdict with
    | none => simp
    | some v =>
      cases hact : v.action == "interrupt" with
      | true => simp [hact, List.countP_append, hth, List.countP_cons, OutChunk.isDone]
      | false => simp [hact, hth]

/-- C2: every streaming request — including speaker failures — terminates
with exactly one `DONE` sentinel, the sentinel is the very last chunk of the
stream, and on a speaker failure an error chunk is present in the stream
ahead of the sentinel. -/
theorem done_sentinel_discipline (cfg : StreamCfg) (deltas : List Delta)
    (polls : List (Option Verdict)) (finalVerdict : Option Verdict)
    (speakerError : Option String) (parsedOk : Bool) :
    (runStream cfg deltas polls finalVerdict speakerError parsedOk).1.countP
        OutChunk.isDone = 1
      ∧ (runStream cfg deltas polls finalVerdict speakerError
          parsedOk).1.getLast? = some OutChunk.done
      ∧ (∀ msg, speakerError = some msg →
          OutChunk.errorChunk msg
            ∈ (runStream cfg deltas polls finalVerdict speakerError parsedOk).1) := by
  have hrole : ([OutChunk.roleChunk]).countP OutChunk.isDone = 0 := rfl
  have hdebug : (if cfg.debug then [OutChunk.debugEcho] else []).countP
      OutChunk.isDone = 0 := by
    split_ifs <;> rfl
  have hloop := runLoop_no_done cfg deltas polls LoopState.init
  have hjson : (jsonTail cfg (runLoop cfg LoopState.init deltas polls).1
      parsedOk).countP OutChunk.isDone = 0 := by
    unfold jsonTail
    split_ifs <;> rfl
  have hfinal := finalCheck_no_done cfg (runLoop cfg LoopState.init deltas polls).1
    finalVerdict
  unfold runStream
  cases speakerError with
  | some msg =>
    refine ⟨?_, ?_, ?_⟩
    · simp only [List.countP_append, hrole, hdebug, hloop]
      rfl
    · exact getLast?_append_pair _ _ _
    · intro m hm
      cases hm
      simp
  | none =>
    refine ⟨?_, ?_, ?_⟩
    · simp only [List.countP_append, hrole, hdebug, hloop, hjson, hfinal]
      rfl
    · exact getLast?_append_pair _ _ _
    · intro m hm
      cases hm

/-- C2 witness: the discipline evaluated on a concrete failing request: one
sentinel, last chunk `DONE`, error chunk present. -/
theorem done_sentinel_discipline_witness :
    (runStream ⟨false, false, false⟩ [⟨"hi", false⟩] [none] none (some "boom")
        true).1.countP OutChunk.isDone = 1
      ∧ (runStream ⟨false, false, false⟩ [⟨"hi", false⟩] [none] none (some "boom")
          true).1.getLast? = some OutChunk.done
      ∧ (∀ msg, (some "boom" : Option String) = some msg →
          OutChunk.errorChunk msg
            ∈ (runStream ⟨false, false, false⟩ [⟨"hi", false⟩] [none] none
                (some "boom") true).1) :=
  done_sentinel_discipline ⟨false, false, false⟩ [⟨"hi", false⟩] [none] none
    (some "boom") true

/-- C3 counterexample: a delta stream whose accumulated length goes from 99
to 101 characters crosses the multiple 100 of the re-evaluation stride, yet
no executive evaluation is spawned: the trigger demands an exact landing on
a multiple (`length % 100 === 0`), not a crossing. -/
theorem reeval_missed_crossing :
    (runStream ⟨false, false, false⟩ [⟨charsA 99, false⟩, ⟨"bb", false⟩]
        [none, none] none none true).2 = []
      ∧ (charsA 99).length = 99 ∧ (charsA 99 ++ "bb").length = 101 := by
  decide

/-- Helper: the spawned payloads of a whole run are exactly the loop's. -/
theorem runStream_spawns (cfg : StreamCfg) (deltas : List Delta)
    (polls : List (Option Verdict)) (finalVerdict : Option Verdict)
    (speakerError : Option String) (parsedOk : Bool) :
    (runStream cfg deltas polls finalVerdict speakerError parsedOk).2
      = (runLoop cfg LoopState.init deltas polls).2.2 := by
  unfold runStream
  cases speakerError <;> rfl

/-- Helper: every spawned evaluation carries an accumulated output of
positive length that is an exact multiple of 100. -/
theorem runLoop_spawn_sound (cfg : StreamCfg) :
    ∀ (deltas : List Delta) (polls : List (Option Verdict)) (st : LoopState)
      (s : String), s ∈ (runLoop cfg st deltas polls).2.2 →
      0 < s.length ∧ s.length % 100 = 0 := by
  intro deltas
  induction deltas with
  | nil =>
    intro polls st s hs
    cases hs
  | cons d ds ih =>
    intro polls st s hs
    have hs' : s ∈ (streamStep cfg st d (polls.headD none)).2.2
        ++ (runLoop cfg (streamStep cfg st d (polls.headD none)).1 ds
            polls.tail).2.2 := hs
    rcases List.mem_append.mp hs' with h | h
    · revert h
      show s ∈ (if !st.hasExecutiveInterrupted
            && (st.speakerOutput ++ d.content).length > 0
            && (st.speakerOutput ++ d.content).length % 100 == 0
          then [st.speakerOutput ++ d.content] else []) → _
      split_ifs with hc
      · intro h
        rw [List.mem_singleton.mp h]
        simp only [Bool.and_eq_true, decide_eq_true_eq, beq_iff_eq] at hc
        exact ⟨hc.1.2, hc.2⟩
      · intro h
        cases h
    · exact ih polls.tail _ s h

/-- Helper: with no verdict ever delivered, the spawned payloads are exactly
the accumulated outputs that land on a positive multiple of 100. -/
theorem runLoop_spawn_characterization (cfg : StreamCfg) :
    ∀ (deltas : List Delta) (polls : List (Option Verdict)) (acc jc : String),
      (∀ p ∈ polls, p = none) →
      (runLoop cfg ⟨acc, jc, false⟩ deltas polls).2.2
        = (accumStates acc deltas).filter
            (fun s => s.length > 0 && s.length % 100 == 0) := by
  intro deltas
  induction deltas with
  | nil => intro polls acc jc hp; rfl
  | cons d ds ih =>
    intro polls acc jc hp
    have hpoll : polls.headD none = none := by
      cases polls with
      | nil => rfl
      | cons p ps => exact hp p (List.mem_cons_self p ps)
    have hptail : ∀ p ∈ polls.tail, p = none := by
      intro p hpm
      cases polls with
      | nil => cases hpm
      | cons q ps => exact hp p (List.mem_cons_of_mem q hpm)
    show (streamStep cfg ⟨acc, jc, false⟩ d (polls.headD none)).2.2
        ++ (runLoop cfg (streamStep cfg ⟨acc, jc, false⟩ d (polls.headD none)).1 ds
            polls.tail).2.2 = _
    rw [hpoll]
    have hstate : (streamStep cfg ⟨acc, jc, false⟩ d none).1
        = ⟨acc ++ d.content,
            (if cfg.isJsonMode && d.content ≠ "" then jc ++ d.content else jc),
            false⟩ := rfl
    rw [hstate, ih polls.tail (acc ++ d.content)
      (if cfg.isJsonMode && d.content ≠ "" then jc ++ d.content else jc) hptail]
    show (if !(false : Bool) && (acc ++ d.content).length > 0
          && (acc ++ d.content).length % 100 == 0
        then [acc ++ d.content] else []) ++ _ = _
    rw [show accumStates acc (d :: ds)
        = (acc ++ d.content) :: accumStates (acc ++ d.content) ds from rfl,
      List.filter_cons]
    simp only [Bool.not_false, Bool.true_and]
    split_ifs with hc
    · rfl
    · rfl

/-- C3 amended: a new executive evaluation is spawned exactly when the
accumulated speaker output, after appending the delta, has positive length
that is an exact multiple of 100 (and no interruption has fired); the
evaluation carries that accumulated output.  Crossing a multiple without
landing on it spawns nothing. -/
theorem reeval_trigger_characterization :
    (∀ (cfg : StreamCfg) (deltas : List Delta) (polls : List (Option Verdict))
       (finalVerdict : Option Verdict) (speakerError : Option String)
       (parsedOk : Bool) (s : String),
       s ∈ (runStream cfg deltas polls finalVerdict speakerError parsedOk).2 →
       0 < s.length ∧ s.length % 100 = 0)
    ∧ (∀ (cfg : StreamCfg) (deltas : List Delta) (polls : List (Option Verdict))
        (finalVerdict : Option Verdict) (speakerError : Option String)
        (parsedOk : Bool),
        (∀ p ∈ polls, p = none) →
        (runStream cfg deltas polls finalVerdict speakerError parsedOk).2
          = (accumStates "" deltas).filter
              (fun s => s.length > 0 && s.length % 100 == 0)) := by
  constructor
  · intro cfg deltas polls finalVerdict speakerError parsedOk s hs
    rw [runStream_spawns] at hs
    exact runLoop_spawn_sound cfg deltas polls LoopState.init s hs
  · intro cfg deltas polls finalVerdict speakerError parsedOk hp
    rw [runStream_spawns]
    exact runLoop_spawn_characterization cfg deltas polls "" "" hp

/-- C3 witness: a single 100-character delta spawns exactly one evaluation
carrying the full accumulated output. -/
theorem reeval_trigger_characterization_witness :
    (0 < (charsA 100).length ∧ (charsA 100).length % 100 = 0)
      ∧ (runStream ⟨false, false, false⟩ [⟨charsA 100, false⟩] [] none none true).2
          = (accumStates "" [⟨charsA 100, false⟩]).filter
              (fun s => s.length > 0 && s.length % 100 == 0) :=
  ⟨reeval_trigger_characterization.1 ⟨false, false, false⟩ [⟨charsA 100, false⟩] []
      none none true (charsA 100) (by decide),
    reeval_trigger_characterization.2 ⟨false, false, false⟩ [⟨charsA 100, false⟩] []
      none none true (by simp)⟩

end ExL
